import Mathlib

/-!
Verification of the OpenEval item validator (`openeval_validator.py`).

The development shallowly embeds the validator: JSON-like values and schema
nodes become inductive types, Python string scanning (`find`, `rfind`,
`split`, `strip`, slicing) becomes structural functions over `List Char`,
and the recursive walk `_validate` becomes a pair of mutually recursive
functions over the schema tree.  Python's `bool` being a subclass of `int`
is reflected in the `isinstance` predicates.  The process-wide schema cache
and file loading are out of scope; the schema tree is a parameter of
`validate_entry`.
-/

namespace OpenEval

/-- A schema node: a tagged/plain string, a mapping of fields, a sequence
template, or any other JSON value (number, boolean, null), which the
classifier skips. -/
inductive SchemaNode where
  | sStr (s : String)
  | sDict (fields : List (String × SchemaNode))
  | sList (items : List SchemaNode)
  | sOther
deriving Repr

/-- A JSON-like data value.  `int` and `bool` are separate constructors, but
the `isinstance` predicates below account for Python's `bool <: int`.  The
rational payload of `float` is never inspected by the validator. -/
inductive JValue where
  | null
  | bool (b : Bool)
  | int (n : Int)
  | float (q : ℚ)
  | str (s : String)
  | list (xs : List JValue)
  | dict (fields : List (String × JValue))
deriving Repr

/-- The exception class stored in a violation's `violation_type` slot:
`KeyError` (missing field), `ValueError` (null or empty `_content` or
`responses` list), `TypeError` (wrong type). -/
inductive PyExc where
  | keyError
  | valueError
  | typeError
deriving Repr, DecidableEq

/-- One violation dict appended by `_validate`: dotted path, the schema
value recorded for the field, and the exception class. -/
structure Violation where
  field : String
  field_desc : SchemaNode
  violation_type : PyExc
deriving Repr

/-- The classification returned by `_classify`. -/
inductive VKind where
  | auto
  | optional
  | required_str
  | required_any
  | required_numeric
  | required_dict
  | required_list_str
  | required_list_dict
deriving Repr, DecidableEq

/-! ### Python string primitives over `List Char` -/

/-- The call `pyFindFrom pat cs i` gives the index (counting from `i`) of the first occurrence
of `pat` in `cs`, as in Python `str.find` (which returns -1, modelled as
`none`). -/
def pyFindFrom (pat : List Char) : List Char → Nat → Option Nat
  | [], i => if pat = [] then some i else none
  | c :: rest, i =>
      if pat.isPrefixOf (c :: rest) then some i else pyFindFrom pat rest (i + 1)

/-- Python `cs.find(pat)` with `none` standing for -1. -/
def pyFind (cs pat : List Char) : Option Nat := pyFindFrom pat cs 0

/-- Helper for `pyRfind`: scan left to right remembering the last index at
which `c` occurred. -/
def pyRfindGo (c : Char) : List Char → Nat → Option Nat → Option Nat
  | [], _, best => best
  | x :: rest, i, best => pyRfindGo c rest (i + 1) (if x = c then some i else best)

/-- Python `cs.rfind(c)` for a single character, with `none` standing
for -1. -/
def pyRfind (cs : List Char) (c : Char) : Option Nat := pyRfindGo c cs 0 none

/-- Helper for `pySplit`: Python `str.split(sep)` for a non-empty separator.
`skip` counts separator characters still to be consumed after a match; `acc`
is the chunk being built. -/
def pySplitGo (sep : List Char) : List Char → Nat → List Char → List (List Char)
  | [], _, acc => [acc]
  | _ :: rest, Nat.succ n, acc => pySplitGo sep rest n acc
  | c :: rest, 0, acc =>
      if sep.isPrefixOf (c :: rest) then
        acc :: pySplitGo sep rest (sep.length - 1) []
      else
        pySplitGo sep rest 0 (acc ++ [c])

/-- Python `cs.split(sep)` for a non-empty separator: leftmost
non-overlapping matches, empty chunks kept, `[""]` on the empty string. -/
def pySplit (cs sep : List Char) : List (List Char) := pySplitGo sep cs 0 []

/-- Python whitespace stripped by `str.strip()`. -/
def isPyWhitespace (c : Char) : Bool :=
  c = ' ' || c = '\t' || c = '\n' || c = '\r' || c = '\x0b' || c = '\x0c'

/-- Python `str.strip()`. -/
def pyStrip (cs : List Char) : List Char :=
  ((cs.dropWhile isPyWhitespace).reverse.dropWhile isPyWhitespace).reverse

/-! ### Tag parsing and classification -/

/-- Model of `_tag_parts`: extract modifier tokens from a `'[type, modifier] ...'`
schema string.  `close = s.find('] ')`, falling back to `s.rfind(']')`,
falling back to -1; the tag is the Python slice `s[1:close]` (so
`s[1:-1]` when both searches fail), split on `','` with each part
stripped. -/
def tag_parts (s : String) : List String :=
  let cs := s.data
  let close : Option Nat :=
    match pyFind cs ("] ".data) with
    | some k => some k
    | none => pyRfind cs ']'
  let inner : List Char :=
    match close with
    | some k => (cs.drop 1).take (k - 1)
    | none => (cs.drop 1).dropLast
  (pySplit inner [',']).map (fun p => String.mk (pyStrip p))

/-- The trimmed type tokens of a tag's first part split on `' or '`, as the
set comprehension `{t.strip() for t in parts[0].split(' or ')}` (modelled as
a list; only membership and subset checks are performed on it). -/
def typeTokens (p0 : String) : List String :=
  (pySplit p0.data (" or ".data)).map (fun t => String.mk (pyStrip t))

/-- Model of `_classify`: classify a schema value into a `VKind`, following the
source's rule order exactly. -/
def classify : SchemaNode → VKind
  | .sStr s =>
      let parts := tag_parts s
      if "auto" ∈ parts then .auto
      else if "optional" ∈ parts then .optional
      else
        let p0 := parts.headD ""
        if ("list[".data).isPrefixOf p0.data then .required_list_str
        else if p0 = "any" then .required_any
        else if typeTokens p0 ≠ [] ∧ ∀ t ∈ typeTokens p0, t = "int" ∨ t = "float" ∨ t = "bool" then
          .required_numeric
        else .required_str
  | .sDict _ => .required_dict
  | .sList (.sStr s :: _) =>
      if "auto" ∈ tag_parts s ∨ "optional" ∈ tag_parts s then .optional
      else .required_list_str
  | .sList (.sDict _ :: _) => .required_list_dict
  | .sList _ => .auto
  | .sOther => .auto

/-! ### Python `isinstance` predicates on data values -/

/-- Python `isinstance(v, bool)`. -/
def isBoolV : JValue → Bool
  | .bool _ => true
  | _ => false

/-- Python `isinstance(v, int)`: true for Python booleans too (`bool` is a subclass
of `int`). -/
def isIntV : JValue → Bool
  | .int _ => true
  | .bool _ => true
  | _ => false

/-- Python `isinstance(v, float)`: integers are not instances of `float`. -/
def isFloatV : JValue → Bool
  | .float _ => true
  | _ => false

/-- Python `isinstance(v, str)`. -/
def isStrV : JValue → Bool
  | .str _ => true
  | _ => false

/-- Python `isinstance(v, dict)`. -/
def isDictV : JValue → Bool
  | .dict _ => true
  | _ => false

/-- Python `isinstance(v, list)`. -/
def isListV : JValue → Bool
  | .list _ => true
  | _ => false

/-- Python `v is None`. -/
def isNoneV : JValue → Bool
  | .null => true
  | _ => false

/-- The classes named by `_type_map` inside the list-element check. -/
inductive PyType where
  | str
  | dict
  | int
  | float
  | bool
deriving Repr, DecidableEq

/-- Model of `_type_map`: `{'str': str, 'dict': dict, 'int': int, 'float': float,
'bool': bool}`, as a partial lookup (`none` for names not in the map). -/
def type_map : String → Option PyType
  | "str" => some .str
  | "dict" => some .dict
  | "int" => some .int
  | "float" => some .float
  | "bool" => some .bool
  | _ => none

/-- Python `isinstance(v, cls)` for one class from `_type_map`; note that the check
against `int` accepts booleans while the check against `float` rejects
integers (raw subclass semantics, unlike the scalar numeric predicates). -/
def isinstance (v : JValue) : PyType → Bool
  | .str => isStrV v
  | .dict => isDictV v
  | .int => isIntV v
  | .float => isFloatV v
  | .bool => isBoolV v

/-- Python `isinstance(elem, allowed)` for a tuple `allowed` of classes. -/
def isinstanceAny (v : JValue) (ts : List PyType) : Bool := ts.any (isinstance v)

/-! ### The recursive validator -/

/-- The call `_tag_parts(schema_value)` as applied inside `_validate`; the source
only ever applies it to string schema values. -/
def nodeTagParts : SchemaNode → List String
  | .sStr s => tag_parts s
  | _ => []

/-- The violation appended by `_validate`'s top-level non-object guard. -/
def rootGuardViolation (path : String) : Violation :=
  ⟨path, .sStr "OPENEVAL ITEM IN JSON FORMAT", .typeError⟩

/-- Python `key.endswith('_content') or key == 'responses'`: the name-based
non-emptiness rule for list fields. -/
def nonEmptyName (key : String) : Bool :=
  ("_content".data).isSuffixOf key.data || key == "responses"

/-- The `inner_type_str` derivation for a `required_list_str` field (lines
135-140): `parts[0][5:-1]` of a `"[list[...]] ..."` string schema, or
`parts[0]` of a one-element list template's tag; `none` otherwise. -/
def innerTypeStr : SchemaNode → Option String
  | .sStr s => some (String.mk (((tag_parts s).headD "").data.drop 5).dropLast)
  | .sList (.sStr t :: _) => some ((tag_parts t).headD "")
  | _ => none

/-- The `allowed` tuple: the classes derived from `inner_type_str` split on
`' or '`, keeping only names present in `_type_map`. -/
def allowedTypes (its : String) : List PyType :=
  (pySplit its.data (" or ".data)).filterMap (fun t => type_map (String.mk (pyStrip t)))

/-- The `valid` accumulation of the `required_numeric` branch (lines
109-115), verbatim: start from `False` and `or` in each allowed token's
predicate. -/
def numericValid (tks : List String) (v : JValue) : Bool :=
  let valid := false
  let valid := if "bool" ∈ tks then valid || isBoolV v else valid
  let valid := if "int" ∈ tks then valid || (isIntV v && !isBoolV v) else valid
  let valid := if "float" ∈ tks then valid || ((isIntV v || isFloatV v) && !isBoolV v) else valid
  valid

/-- The `required_str` checks of `_validate`'s loop body (lines 91-97):
missing key, null value, non-string value. -/
def strFieldChecks (node : SchemaNode) (data : List (String × JValue))
    (key fieldPath : String) : List Violation :=
  match data.lookup key with
  | none => [⟨fieldPath, node, .keyError⟩]
  | some .null => [⟨fieldPath, node, .valueError⟩]
  | some v => if isStrV v then [] else [⟨fieldPath, node, .typeError⟩]

/-- The `required_any` checks (lines 99-101): only presence is demanded. -/
def anyFieldChecks (node : SchemaNode) (data : List (String × JValue))
    (key fieldPath : String) : List Violation :=
  match data.lookup key with
  | none => [⟨fieldPath, node, .keyError⟩]
  | some _ => []

/-- The `required_numeric` checks (lines 103-117): presence, then the
`valid` accumulation over the tag's type tokens. -/
def numericFieldChecks (node : SchemaNode) (data : List (String × JValue))
    (key fieldPath : String) : List Violation :=
  match data.lookup key with
  | none => [⟨fieldPath, node, .keyError⟩]
  | some v =>
      if numericValid (typeTokens ((nodeTagParts node).headD "")) v then []
      else [⟨fieldPath, node, .typeError⟩]

/-- The per-element type checks of the `required_list_str` branch (lines
135-147): derive `inner_type_str` and `allowed`, then flag each element
that is no instance of an allowed class. -/
def listStrElemChecks (node : SchemaNode) (elems : List JValue)
    (fieldPath : String) : List Violation :=
  match innerTypeStr node with
  | none => []
  | some its =>
      if its = "" then []
      else if allowedTypes its = [] then []
      else
        elems.enum.flatMap (fun p =>
          if isinstanceAny p.2 (allowedTypes its) then []
          else [⟨fieldPath ++ "[" ++ toString p.1 ++ "]", node, .typeError⟩])

/-- The `required_list_str` checks (lines 127-147): presence, list shape,
the name-based non-emptiness rule, then the element type checks. -/
def listStrFieldChecks (node : SchemaNode) (data : List (String × JValue))
    (key fieldPath : String) : List Violation :=
  match data.lookup key with
  | none => [⟨fieldPath, node, .keyError⟩]
  | some (.list elems) =>
      (if nonEmptyName key && elems.length == 0
       then [⟨fieldPath, node, .valueError⟩] else [])
      ++ listStrElemChecks node elems fieldPath
  | some _ => [⟨fieldPath, node, .typeError⟩]

/-- Model of `_validate`'s loop body for a string schema value, dispatching on its
classification.  A string never classifies to `required_dict` or
`required_list_dict` (see `classify_sStr_cases`), so those branches are
unreachable and empty. -/
def validateStrField (s : String) (data : List (String × JValue))
    (key fieldPath : String) : List Violation :=
  match classify (.sStr s) with
  | .auto => []
  | .optional => []
  | .required_str => strFieldChecks (.sStr s) data key fieldPath
  | .required_any => anyFieldChecks (.sStr s) data key fieldPath
  | .required_numeric => numericFieldChecks (.sStr s) data key fieldPath
  | .required_list_str => listStrFieldChecks (.sStr s) data key fieldPath
  | .required_dict => []
  | .required_list_dict => []

mutual

/-- One iteration of `_validate`'s field loop: the checks for a single
`key -> schema_value` pair of the schema.  The source dispatches on the
`_classify` result; here the dispatch is arranged by the schema value's
shape so that the recursion is structural, and `validateField_eq_dispatch`
proves the arrangement equal to the source's kind dispatch
(`validateFieldK`).  Recursive calls of `_validate` on values already known
to be dicts go straight to `validateFields`; the call on a dict-list
element inlines `_validate`'s non-object guard (see `validate_elem_eq`). -/
def validateField : SchemaNode → List (String × JValue) → String → String → List Violation
  | .sStr s, data, key, fieldPath => validateStrField s data key fieldPath
  | .sDict inner, data, key, fieldPath =>
      -- a mapping node always classifies to `required_dict` (lines 119-125)
      match data.lookup key with
      | none => [⟨fieldPath, .sDict inner, .keyError⟩]
      | some (.dict sub) => validateFields inner sub fieldPath
      | some _ => [⟨fieldPath, .sDict inner, .typeError⟩]
  | .sList (.sStr t :: items), data, key, fieldPath =>
      -- a string-template list classifies to `optional` or `required_list_str`
      match classify (.sList (.sStr t :: items)) with
      | .optional => []
      | .required_list_str =>
          listStrFieldChecks (.sList (.sStr t :: items)) data key fieldPath
      | _ => []
  | .sList (.sDict tf :: items), data, key, fieldPath =>
      -- a dict-template list always classifies to `required_list_dict` (lines 149-159)
      match data.lookup key with
      | none => [⟨fieldPath, .sList (.sDict tf :: items), .keyError⟩]
      | some (.list elems) =>
          (if nonEmptyName key && elems.length == 0
           then [⟨fieldPath, .sList (.sDict tf :: items), .valueError⟩] else [])
          ++
          (let recur := validateFields tf
           elems.enum.flatMap (fun p =>
             match p.2 with
             | .dict ef => recur ef (fieldPath ++ "[" ++ toString p.1 ++ "]")
             | _ => [rootGuardViolation (fieldPath ++ "[" ++ toString p.1 ++ "]")]))
      | some _ => [⟨fieldPath, .sList (.sDict tf :: items), .typeError⟩]
  | .sList [], _, _, _ => []          -- classifies to `auto`: skip
  | .sList (.sList _ :: _), _, _, _ => []  -- classifies to `auto`: skip
  | .sList (.sOther :: _), _, _, _ => []   -- classifies to `auto`: skip
  | .sOther, _, _, _ => []            -- classifies to `auto`: skip

/-- Model of `_validate`'s loop over the schema's fields, for a record value already
known to be a dict. -/
def validateFields : List (String × SchemaNode) → List (String × JValue) → String → List Violation
  | [], _, _ => []
  | (key, node) :: rest, data, path =>
      validateField node data key (if path = "" then key else path ++ "." ++ key) ++
      validateFields rest data path

end

/-- Model of `_validate`'s loop body exactly as the source writes it: classify the
schema value and dispatch on the kind (lines 86-159).  Proved equal to
`validateField` in `validateField_eq_dispatch`. -/
def validateFieldK (node : SchemaNode) (data : List (String × JValue))
    (key fieldPath : String) : List Violation :=
  match classify node with
  | .auto => []
  | .optional => []
  | .required_str => strFieldChecks node data key fieldPath
  | .required_any => anyFieldChecks node data key fieldPath
  | .required_numeric => numericFieldChecks node data key fieldPath
  | .required_dict =>
      match data.lookup key with
      | none => [⟨fieldPath, node, .keyError⟩]
      | some (.dict sub) =>
          (match node with
           | .sDict inner => validateFields inner sub fieldPath
           | _ => [])
      | some _ => [⟨fieldPath, node, .typeError⟩]
  | .required_list_str => listStrFieldChecks node data key fieldPath
  | .required_list_dict =>
      match data.lookup key with
      | none => [⟨fieldPath, node, .keyError⟩]
      | some (.list elems) =>
          (if nonEmptyName key && elems.length == 0
           then [⟨fieldPath, node, .valueError⟩] else [])
          ++
          (match node with
           | .sList (.sDict tf :: _) =>
               elems.enum.flatMap (fun p =>
                 match p.2 with
                 | .dict ef => validateFields tf ef (fieldPath ++ "[" ++ toString p.1 ++ "]")
                 | _ => [rootGuardViolation (fieldPath ++ "[" ++ toString p.1 ++ "]")])
           | _ => [])
      | some _ => [⟨fieldPath, node, .typeError⟩]

/-- Model of `_validate`: the top-level non-object guard followed by the field
loop. -/
def validate (data : JValue) (schema : List (String × SchemaNode)) (path : String) : List Violation :=
  match data with
  | .dict fields => validateFields schema fields path
  | _ => [rootGuardViolation path]

/-- Model of `validate_entry`: run `_validate` against the supplied schema tree and
return `(len(violations) == 0, violations)`.  The process-wide schema cache
is out of scope, so the schema is a parameter. -/
def validate_entry (schema : List (String × SchemaNode)) (entry : JValue) :
    Bool × List Violation :=
  let violations := validate entry schema ""
  (violations.length == 0, violations)

/-! ### Auxiliary definitions used by the statements -/

/-- The per-token acceptance predicate of the scalar numeric check:
`bool` = is-boolean, `int` = is-integer-and-not-boolean, `float` =
is-integer-or-float-and-not-boolean; any other token accepts nothing. -/
def scalarTokenPred (t : String) (v : JValue) : Bool :=
  if t = "bool" then isBoolV v
  else if t = "int" then isIntV v && !isBoolV v
  else if t = "float" then (isIntV v || isFloatV v) && !isBoolV v
  else false

/-- The spec's tag grammar, stated in its own words: the tag is the
substring between the first `[` in the string and the first occurrence of
`'] '` (or, if no `'] '` exists, the last `]`), split on commas, each token
trimmed.  The grammar presupposes a bracketed tag; if the string has no `[`
or no closing position, no tokens are produced. -/
def specTagParts (s : String) : List String :=
  let cs := s.data
  let openPos := pyFind cs ['[']
  let closePos :=
    match pyFind cs ("] ".data) with
    | some k => some k
    | none => pyRfind cs ']'
  match openPos, closePos with
  | some i, some k =>
      (pySplit ((cs.drop (i + 1)).take (k - (i + 1))) [',']).map
        (fun p => String.mk (pyStrip p))
  | _, _ => []

/-- The spec's classification rules for a tagged string, applied to an
already-extracted token list, in order: any token `auto` gives `Auto`, else
any token `optional` gives `Optional`, else the first token is dispatched
(a first token starting with `list[` gives the string-list kind, `any` gives `RequiredAny`, a
non-empty token set within `int`/`float`/`bool` gives `RequiredNumeric`,
anything else `RequiredString`). -/
def specDispatchTag (parts : List String) : VKind :=
  if "auto" ∈ parts then .auto
  else if "optional" ∈ parts then .optional
  else
    let p0 := parts.headD ""
    if ("list[".data).isPrefixOf p0.data then .required_list_str
    else if p0 = "any" then .required_any
    else if typeTokens p0 ≠ [] ∧ ∀ t ∈ typeTokens p0, t = "int" ∨ t = "float" ∨ t = "bool" then
      .required_numeric
    else .required_str

mutual

/-- All schema values reachable from a node that the validator can record
in a violation's `field_desc`: the node itself, and recursively the field
values of a mapping node or of a dict-list template. -/
def nodeReach : SchemaNode → List SchemaNode
  | .sStr s => [.sStr s]
  | .sDict fs => .sDict fs :: fieldsSubNodes fs
  | .sList (.sDict tf :: rest) => .sList (.sDict tf :: rest) :: fieldsSubNodes tf
  | .sList items => [.sList items]
  | .sOther => [.sOther]

/-- All schema values reachable from a schema's field list. -/
def fieldsSubNodes : List (String × SchemaNode) → List SchemaNode
  | [] => []
  | (_, n) :: rest => nodeReach n ++ fieldsSubNodes rest

end

/-- The dotted field path computed in `_validate`'s loop:
`f"{path}.{key}" if path else key`. -/
def joinPath (path key : String) : String :=
  if path = "" then key else path ++ "." ++ key

/-- The element path `fieldPath[i]` used for list elements. -/
def elemPath (fieldPath : String) (i : Nat) : String :=
  fieldPath ++ "[" ++ toString i ++ "]"

/-- Where a violation collected by `_validate` over `schema` at `path` gets
its descriptor.  A violation either belongs to a field `key -> node` of
`schema` itself — its path is that field's dotted path, or an element
position of it, and its `field_desc` is exactly that field's schema value
`node` — or it is the non-object guard's fixed placeholder violation,
emitted at the root path or at an element position of a dict-template list
field of `schema`, or it arises one level deeper: through a mapping field
with the path extended by the field's key, or through a dict-template list
element with the path extended by the key and the element index. -/
inductive DescAt : List (String × SchemaNode) → String → Violation → Prop where
  | field (schema : List (String × SchemaNode)) (path key : String) (node : SchemaNode)
      (v : Violation) (hmem : (key, node) ∈ schema)
      (hpath : v.field = joinPath path key ∨
        ∃ i : Nat, v.field = elemPath (joinPath path key) i)
      (hdesc : v.field_desc = node) : DescAt schema path v
  | rootGuard (schema : List (String × SchemaNode)) (path : String) :
      DescAt schema path (rootGuardViolation path)
  | elemGuard (schema : List (String × SchemaNode)) (path key : String)
      (tf : List (String × SchemaNode)) (rest : List SchemaNode) (i : Nat)
      (hmem : (key, .sList (.sDict tf :: rest)) ∈ schema) :
      DescAt schema path (rootGuardViolation (elemPath (joinPath path key) i))
  | intoDict (schema : List (String × SchemaNode)) (path key : String)
      (inner : List (String × SchemaNode)) (v : Violation)
      (hmem : (key, .sDict inner) ∈ schema)
      (hsub : DescAt inner (joinPath path key) v) : DescAt schema path v
  | intoListDict (schema : List (String × SchemaNode)) (path key : String)
      (tf : List (String × SchemaNode)) (rest : List SchemaNode) (i : Nat) (v : Violation)
      (hmem : (key, .sList (.sDict tf :: rest)) ∈ schema)
      (hsub : DescAt tf (elemPath (joinPath path key) i) v) : DescAt schema path v

end OpenEval

namespace OpenEval

/-! ### Supporting lemmas -/

/-- The inlined element call in `validateField`'s dict-list branch is
exactly `_validate(item, template, fieldPath[i])`. -/
theorem validate_elem_eq (e : JValue) (tf : List (String × SchemaNode)) (p : String) :
    (match e with
     | .dict ef => validateFields tf ef p
     | _ => [rootGuardViolation p]) = validate e tf p := by
  cases e <;> rfl

/-- Every schema node occurs in its own reach list. -/
theorem self_mem_nodeReach (n : SchemaNode) : n ∈ nodeReach n := by
  cases n with
  | sStr s => exact List.mem_singleton.mpr rfl
  | sDict fs => exact List.mem_cons_self _ _
  | sList items =>
      cases items with
      | nil => exact List.mem_singleton.mpr rfl
      | cons h t =>
          cases h with
          | sStr s => exact List.mem_singleton.mpr rfl
          | sDict tf => exact List.mem_cons_self _ _
          | sList l => exact List.mem_singleton.mpr rfl
          | sOther => exact List.mem_singleton.mpr rfl
  | sOther => exact List.mem_singleton.mpr rfl

/-- The scan `pyRfindGo` finds an index whenever the character occurs or a previous
best exists. -/
theorem pyRfindGo_isSome (c : Char) (cs : List Char) :
    ∀ (i : Nat) (best : Option Nat), (c ∈ cs ∨ best.isSome) →
      (pyRfindGo c cs i best).isSome := by
  induction cs with
  | nil =>
      intro i best h
      rcases h with h | h
      · simp at h
      · simpa [pyRfindGo] using h
  | cons x rest ih =>
      intro i best h
      rw [pyRfindGo]
      apply ih
      by_cases hx : x = c
      · right; simp [hx]
      · rcases h with h | h
        · rcases List.mem_cons.mp h with h1 | h1
          · exact absurd h1.symm hx
          · exact Or.inl h1
        · right; simpa [hx] using h

/-- Python `rfind` succeeds when the character occurs in the string. -/
theorem pyRfind_isSome (cs : List Char) (c : Char) (h : c ∈ cs) :
    (pyRfind cs c).isSome :=
  pyRfindGo_isSome c cs 0 none (Or.inl h)

/-- The `valid` accumulation equals the three gated disjuncts. -/
theorem numericValid_eq_true_iff (tks : List String) (v : JValue) :
    numericValid tks v = true ↔
      ("bool" ∈ tks ∧ isBoolV v = true) ∨
      ("int" ∈ tks ∧ (isIntV v && !isBoolV v) = true) ∨
      ("float" ∈ tks ∧ ((isIntV v || isFloatV v) && !isBoolV v) = true) := by
  unfold numericValid
  by_cases h1 : "bool" ∈ tks <;> by_cases h2 : "int" ∈ tks <;> by_cases h3 : "float" ∈ tks <;>
    simp [h1, h2, h3]
  all_goals tauto

/-- Acceptance by some token of the tag equals the three gated disjuncts. -/
theorem exists_scalarTokenPred_iff (tks : List String) (v : JValue) :
    (∃ t ∈ tks, scalarTokenPred t v = true) ↔
      ("bool" ∈ tks ∧ isBoolV v = true) ∨
      ("int" ∈ tks ∧ (isIntV v && !isBoolV v) = true) ∨
      ("float" ∈ tks ∧ ((isIntV v || isFloatV v) && !isBoolV v) = true) := by
  constructor
  · rintro ⟨t, ht, hp⟩
    unfold scalarTokenPred at hp
    by_cases e1 : t = "bool"
    · subst e1; exact Or.inl ⟨ht, by simpa using hp⟩
    · by_cases e2 : t = "int"
      · subst e2; exact Or.inr (Or.inl ⟨ht, by simpa [e1] using hp⟩)
      · by_cases e3 : t = "float"
        · subst e3; exact Or.inr (Or.inr ⟨ht, by simpa [e1, e2] using hp⟩)
        · simp [e1, e2, e3] at hp
  · rintro (⟨ht, hp⟩ | ⟨ht, hp⟩ | ⟨ht, hp⟩)
    · exact ⟨"bool", ht, by simp [scalarTokenPred, hp]⟩
    · exact ⟨"int", ht, by simp [scalarTokenPred, hp]⟩
    · exact ⟨"float", ht, by simp [scalarTokenPred, hp]⟩

/-- The scalar numeric value check accepts exactly when some token of the
tag accepts. -/
theorem numericValid_iff_exists (tks : List String) (v : JValue) :
    numericValid tks v = true ↔ ∃ t ∈ tks, scalarTokenPred t v = true :=
  (numericValid_eq_true_iff tks v).trans (exists_scalarTokenPred_iff tks v).symm

/-- An element path `fp[i]` is never the empty string. -/
theorem fieldPathIdx_ne_empty (fp : String) (i : Nat) :
    fp ++ "[" ++ toString i ++ "]" ≠ "" := by
  intro h
  have hlen := congrArg String.length h
  simp only [String.length_append] at hlen
  have h1 : ("[" : String).length = 1 := rfl
  have h2 : ("]" : String).length = 1 := rfl
  have h0 : ("" : String).length = 0 := rfl
  omega

end OpenEval

namespace OpenEval

/-- A mapping node always classifies to `required_dict`. -/
theorem classify_sDict (fs : List (String × SchemaNode)) :
    classify (.sDict fs) = .required_dict := rfl

/-- A dict-template list always classifies to `required_list_dict`. -/
theorem classify_sList_dict (tf : List (String × SchemaNode)) (rest : List SchemaNode) :
    classify (.sList (.sDict tf :: rest)) = .required_list_dict := rfl

/-- A string schema value never classifies to one of the two dict kinds. -/
theorem classify_sStr_cases (s : String) :
    classify (.sStr s) ≠ .required_dict ∧ classify (.sStr s) ≠ .required_list_dict := by
  unfold classify
  constructor <;> (dsimp only; split_ifs <;> simp)

/-- The shape-arranged `validateField` computes exactly the source's
classify-and-dispatch loop body `validateFieldK`. -/
theorem validateField_eq_dispatch (node : SchemaNode) (data : List (String × JValue))
    (key fieldPath : String) :
    validateField node data key fieldPath = validateFieldK node data key fieldPath := by
  cases node with
  | sStr s =>
      show validateStrField s data key fieldPath = _
      unfold validateStrField validateFieldK
      cases h : classify (.sStr s) with
      | required_dict => exact absurd h (classify_sStr_cases s).1
      | required_list_dict => exact absurd h (classify_sStr_cases s).2
      | _ => rfl
  | sDict inner =>
      unfold validateField validateFieldK
      rw [classify_sDict]
  | sList items =>
      cases items with
      | nil => rfl
      | cons hd tl =>
          cases hd with
          | sStr t =>
              have hc0 : classify (.sList (.sStr t :: tl)) =
                  (if "auto" ∈ tag_parts t ∨ "optional" ∈ tag_parts t then VKind.optional
                   else VKind.required_list_str) := rfl
              unfold validateField validateFieldK
              rw [hc0]
              by_cases hopt : "auto" ∈ tag_parts t ∨ "optional" ∈ tag_parts t
              · rw [if_pos hopt]
              · rw [if_neg hopt]
          | sDict tf =>
              unfold validateField validateFieldK
              rw [classify_sList_dict]
          | sList l => rfl
          | sOther => rfl
  | sOther => rfl

mutual

/-- Every violation produced by the checks of one field has a `field` path
at least as long as the field's own path. -/
theorem mem_validateField_length (node : SchemaNode) (data : List (String × JValue))
    (key fieldPath : String) (v : Violation)
    (hv : v ∈ validateField node data key fieldPath) :
    fieldPath.length ≤ v.field.length := by
  rw [validateField_eq_dispatch] at hv
  unfold validateFieldK at hv
  split at hv
  · simp at hv
  · simp at hv
  · -- required_str
    unfold strFieldChecks at hv
    split at hv
    · rw [List.mem_singleton] at hv; subst hv; exact Nat.le_refl _
    · rw [List.mem_singleton] at hv; subst hv; exact Nat.le_refl _
    · split at hv
      · simp at hv
      · rw [List.mem_singleton] at hv; subst hv; exact Nat.le_refl _
  · -- required_any
    unfold anyFieldChecks at hv
    split at hv
    · rw [List.mem_singleton] at hv; subst hv; exact Nat.le_refl _
    · simp at hv
  · -- required_numeric
    unfold numericFieldChecks at hv
    split at hv
    · rw [List.mem_singleton] at hv; subst hv; exact Nat.le_refl _
    · split at hv
      · simp at hv
      · rw [List.mem_singleton] at hv; subst hv; exact Nat.le_refl _
  · -- required_dict
    split at hv
    · rw [List.mem_singleton] at hv; subst hv; exact Nat.le_refl _
    · split at hv
      · by_cases hfp : fieldPath = ""
        · subst hfp; exact Nat.zero_le _
        · exact Nat.le_of_lt (mem_validateFields_length _ _ _ v hv hfp)
      · simp at hv
    · rw [List.mem_singleton] at hv; subst hv; exact Nat.le_refl _
  · -- required_list_str
    unfold listStrFieldChecks at hv
    split at hv
    · rw [List.mem_singleton] at hv; subst hv; exact Nat.le_refl _
    · rcases List.mem_append.mp hv with h | h
      · split at h
        · rw [List.mem_singleton] at h; subst h; exact Nat.le_refl _
        · simp at h
      · unfold listStrElemChecks at h
        split at h
        · simp at h
        · split at h
          · simp at h
          · split at h
            · simp at h
            · rcases List.mem_flatMap.mp h with ⟨p, _, hm⟩
              split at hm
              · simp at hm
              · rw [List.mem_singleton] at hm; subst hm
                simp only [String.length_append]
                omega
    · rw [List.mem_singleton] at hv; subst hv; exact Nat.le_refl _
  · -- required_list_dict
    split at hv
    · rw [List.mem_singleton] at hv; subst hv; exact Nat.le_refl _
    · rcases List.mem_append.mp hv with h | h
      · split at h
        · rw [List.mem_singleton] at h; subst h; exact Nat.le_refl _
        · simp at h
      · split at h
        · rcases List.mem_flatMap.mp h with ⟨p, _, hm⟩
          split at hm
          · have hne := fieldPathIdx_ne_empty fieldPath p.1
            have hlt := mem_validateFields_length _ _ _ v hm hne
            simp only [String.length_append] at hlt
            omega
          · rw [List.mem_singleton] at hm; subst hm
            simp only [rootGuardViolation, String.length_append]
            omega
        · simp at h
    · rw [List.mem_singleton] at hv; subst hv; exact Nat.le_refl _

/-- Every violation produced below a non-empty path has a strictly longer
`field` path. -/
theorem mem_validateFields_length (schema : List (String × SchemaNode))
    (data : List (String × JValue)) (path : String) (v : Violation)
    (hv : v ∈ validateFields schema data path) (hp : path ≠ "") :
    path.length < v.field.length := by
  match schema with
  | [] =>
      unfold validateFields at hv
      simp at hv
  | (key, node) :: rest =>
      unfold validateFields at hv
      rcases List.mem_append.mp hv with h | h
      · have hle := mem_validateField_length node data key _ v h
        rw [if_neg hp] at hle
        have h1 : ("." : String).length = 1 := rfl
        simp only [String.length_append] at hle
        omega
      · exact mem_validateFields_length rest data path v h hp

end

end OpenEval

namespace OpenEval

mutual

/-- Every violation produced by one field's checks records either a schema
value reachable from that field's node, or the fixed guard placeholder
string. -/
theorem mem_validateField_desc (node : SchemaNode) (data : List (String × JValue))
    (key fieldPath : String) (v : Violation)
    (hv : v ∈ validateField node data key fieldPath) :
    v.field_desc ∈ nodeReach node ∨ v.field_desc = .sStr "OPENEVAL ITEM IN JSON FORMAT" := by
  rw [validateField_eq_dispatch] at hv
  unfold validateFieldK at hv
  split at hv
  · simp at hv
  · simp at hv
  · -- required_str
    unfold strFieldChecks at hv
    split at hv
    · rw [List.mem_singleton] at hv; subst hv; exact Or.inl (self_mem_nodeReach node)
    · rw [List.mem_singleton] at hv; subst hv; exact Or.inl (self_mem_nodeReach node)
    · split at hv
      · simp at hv
      · rw [List.mem_singleton] at hv; subst hv; exact Or.inl (self_mem_nodeReach node)
  · -- required_any
    unfold anyFieldChecks at hv
    split at hv
    · rw [List.mem_singleton] at hv; subst hv; exact Or.inl (self_mem_nodeReach node)
    · simp at hv
  · -- required_numeric
    unfold numericFieldChecks at hv
    split at hv
    · rw [List.mem_singleton] at hv; subst hv; exact Or.inl (self_mem_nodeReach node)
    · split at hv
      · simp at hv
      · rw [List.mem_singleton] at hv; subst hv; exact Or.inl (self_mem_nodeReach node)
  · -- required_dict
    split at hv
    · rw [List.mem_singleton] at hv; subst hv; exact Or.inl (self_mem_nodeReach node)
    · split at hv
      · rcases mem_validateFields_desc _ _ _ v hv with h | h
        · left
          rw [nodeReach]
          exact List.mem_cons_of_mem _ h
        · exact Or.inr h
      · simp at hv
    · rw [List.mem_singleton] at hv; subst hv; exact Or.inl (self_mem_nodeReach node)
  · -- required_list_str
    unfold listStrFieldChecks at hv
    split at hv
    · rw [List.mem_singleton] at hv; subst hv; exact Or.inl (self_mem_nodeReach node)
    · rcases List.mem_append.mp hv with h | h
      · split at h
        · rw [List.mem_singleton] at h; subst h; exact Or.inl (self_mem_nodeReach node)
        · simp at h
      · unfold listStrElemChecks at h
        split at h
        · simp at h
        · split at h
          · simp at h
          · split at h
            · simp at h
            · rcases List.mem_flatMap.mp h with ⟨p, _, hm⟩
              split at hm
              · simp at hm
              · rw [List.mem_singleton] at hm; subst hm
                exact Or.inl (self_mem_nodeReach node)
    · rw [List.mem_singleton] at hv; subst hv; exact Or.inl (self_mem_nodeReach node)
  · -- required_list_dict
    split at hv
    · rw [List.mem_singleton] at hv; subst hv; exact Or.inl (self_mem_nodeReach node)
    · rcases List.mem_append.mp hv with h | h
      · split at h
        · rw [List.mem_singleton] at h; subst h; exact Or.inl (self_mem_nodeReach node)
        · simp at h
      · split at h
        · rcases List.mem_flatMap.mp h with ⟨p, _, hm⟩
          split at hm
          · rcases mem_validateFields_desc _ _ _ v hm with h1 | h1
            · left
              rw [nodeReach]
              exact List.mem_cons_of_mem _ h1
            · exact Or.inr h1
          · rw [List.mem_singleton] at hm; subst hm
            exact Or.inr rfl
        · simp at h
    · rw [List.mem_singleton] at hv; subst hv; exact Or.inl (self_mem_nodeReach node)

/-- Every violation collected over a schema's fields records either a
schema value occurring in the schema, or the guard placeholder string. -/
theorem mem_validateFields_desc (schema : List (String × SchemaNode))
    (data : List (String × JValue)) (path : String) (v : Violation)
    (hv : v ∈ validateFields schema data path) :
    v.field_desc ∈ fieldsSubNodes schema ∨
      v.field_desc = .sStr "OPENEVAL ITEM IN JSON FORMAT" := by
  match schema with
  | [] =>
      unfold validateFields at hv
      simp at hv
  | (key, node) :: rest =>
      unfold validateFields at hv
      rcases List.mem_append.mp hv with h | h
      · rcases mem_validateField_desc node data key _ v h with h1 | h1
        · left; rw [fieldsSubNodes]; exact List.mem_append_left _ h1
        · exact Or.inr h1
      · rcases mem_validateFields_desc rest data path v h with h1 | h1
        · left; rw [fieldsSubNodes]; exact List.mem_append_right _ h1
        · exact Or.inr h1

end

/-- `DescAt` is monotone in the schema: every constructor refers to the
schema only through one field's membership. -/
theorem descAt_mono {schema schema2 : List (String × SchemaNode)} {path : String}
    {v : Violation} (h : DescAt schema path v)
    (hsub : ∀ x ∈ schema, x ∈ schema2) : DescAt schema2 path v := by
  cases h with
  | field _ _ key node _ hmem hpath hdesc =>
      exact .field _ _ key node _ (hsub _ hmem) hpath hdesc
  | rootGuard => exact .rootGuard _ _
  | elemGuard _ _ key tf rest i hmem =>
      exact .elemGuard _ _ key tf rest i (hsub _ hmem)
  | intoDict _ _ key inner _ hmem hsub2 =>
      exact .intoDict _ _ key inner _ (hsub _ hmem) hsub2
  | intoListDict _ _ key tf rest i _ hmem hsub2 =>
      exact .intoListDict _ _ key tf rest i _ (hsub _ hmem) hsub2

mutual

/-- Every violation produced by the checks of a field `key -> node` of
`schema`, at the field's dotted path, carries exactly that field's schema
value as its descriptor — or is a guard/deeper violation as described by
`DescAt`. -/
theorem descAt_validateField (node : SchemaNode) (data : List (String × JValue))
    (schema : List (String × SchemaNode)) (path key : String) (v : Violation)
    (hmem : (key, node) ∈ schema)
    (hv : v ∈ validateField node data key (joinPath path key)) :
    DescAt schema path v := by
  rw [validateField_eq_dispatch] at hv
  unfold validateFieldK at hv
  split at hv
  · simp at hv
  · simp at hv
  · -- required_str
    unfold strFieldChecks at hv
    split at hv
    · rw [List.mem_singleton] at hv; subst hv
      exact .field _ _ key node _ hmem (Or.inl rfl) rfl
    · rw [List.mem_singleton] at hv; subst hv
      exact .field _ _ key node _ hmem (Or.inl rfl) rfl
    · split at hv
      · simp at hv
      · rw [List.mem_singleton] at hv; subst hv
        exact .field _ _ key node _ hmem (Or.inl rfl) rfl
  · -- required_any
    unfold anyFieldChecks at hv
    split at hv
    · rw [List.mem_singleton] at hv; subst hv
      exact .field _ _ key node _ hmem (Or.inl rfl) rfl
    · simp at hv
  · -- required_numeric
    unfold numericFieldChecks at hv
    split at hv
    · rw [List.mem_singleton] at hv; subst hv
      exact .field _ _ key node _ hmem (Or.inl rfl) rfl
    · split at hv
      · simp at hv
      · rw [List.mem_singleton] at hv; subst hv
        exact .field _ _ key node _ hmem (Or.inl rfl) rfl
  · -- required_dict
    split at hv
    · rw [List.mem_singleton] at hv; subst hv
      exact .field _ _ key node _ hmem (Or.inl rfl) rfl
    · split at hv
      · exact .intoDict _ _ key _ v hmem
          (descAt_validateFields _ _ (joinPath path key) v hv)
      · simp at hv
    · rw [List.mem_singleton] at hv; subst hv
      exact .field _ _ key node _ hmem (Or.inl rfl) rfl
  · -- required_list_str
    unfold listStrFieldChecks at hv
    split at hv
    · rw [List.mem_singleton] at hv; subst hv
      exact .field _ _ key node _ hmem (Or.inl rfl) rfl
    · rcases List.mem_append.mp hv with h | h
      · split at h
        · rw [List.mem_singleton] at h; subst h
          exact .field _ _ key node _ hmem (Or.inl rfl) rfl
        · simp at h
      · unfold listStrElemChecks at h
        split at h
        · simp at h
        · split at h
          · simp at h
          · split at h
            · simp at h
            · rcases List.mem_flatMap.mp h with ⟨p, _, hm⟩
              split at hm
              · simp at hm
              · rw [List.mem_singleton] at hm; subst hm
                exact .field _ _ key node _ hmem (Or.inr ⟨p.1, rfl⟩) rfl
    · rw [List.mem_singleton] at hv; subst hv
      exact .field _ _ key node _ hmem (Or.inl rfl) rfl
  · -- required_list_dict
    split at hv
    · rw [List.mem_singleton] at hv; subst hv
      exact .field _ _ key node _ hmem (Or.inl rfl) rfl
    · rcases List.mem_append.mp hv with h | h
      · split at h
        · rw [List.mem_singleton] at h; subst h
          exact .field _ _ key node _ hmem (Or.inl rfl) rfl
        · simp at h
      · split at h
        · rcases List.mem_flatMap.mp h with ⟨p, _, hm⟩
          split at hm
          · exact .intoListDict _ _ key _ _ p.1 v hmem
              (descAt_validateFields _ _ (elemPath (joinPath path key) p.1) v hm)
          · rw [List.mem_singleton] at hm; subst hm
            exact .elemGuard _ _ key _ _ p.1 hmem
        · simp at h
    · rw [List.mem_singleton] at hv; subst hv
      exact .field _ _ key node _ hmem (Or.inl rfl) rfl

/-- Every violation collected over a schema's fields has its descriptor
located by `DescAt`. -/
theorem descAt_validateFields (schema : List (String × SchemaNode))
    (data : List (String × JValue)) (path : String) (v : Violation)
    (hv : v ∈ validateFields schema data path) : DescAt schema path v := by
  match schema with
  | [] =>
      unfold validateFields at hv
      simp at hv
  | (key, node) :: rest =>
      unfold validateFields at hv
      rcases List.mem_append.mp hv with h | h
      · exact descAt_validateField node data ((key, node) :: rest) path key v
          (List.mem_cons_self _ _) h
      · exact descAt_mono (descAt_validateFields rest data path v h)
          (fun x hx => List.mem_cons_of_mem _ hx)

end

end OpenEval

namespace OpenEval

/-! ### Claim theorems -/

/-- C1: for the schema `{"id": "[auto] id", "title": "title text",
"scores": ["[int or float] a score"], "tags_content": ["tag text"]}` and
the record `{"title": 5, "scores": ["x"], "tags_content": []}`, validation
produces exactly three violations, in order: TypeMismatch at `title`,
TypeMismatch at `scores[0]`, NullOrEmptyValue at `tags_content`; the entry
point reports `isValid = false`, and the absent auto-tagged `id` field
produces no violation. -/
theorem c1_example_three_violations :
    validate_entry
      [("id", .sStr "[auto] id"), ("title", .sStr "title text"),
       ("scores", .sList [.sStr "[int or float] a score"]),
       ("tags_content", .sList [.sStr "tag text"])]
      (.dict [("title", .int 5), ("scores", .list [.str "x"]),
              ("tags_content", .list [])]) =
      (false,
       [⟨"title", .sStr "title text", .typeError⟩,
        ⟨"scores[0]", .sList [.sStr "[int or float] a score"], .typeError⟩,
        ⟨"tags_content", .sList [.sStr "tag text"], .valueError⟩]) := rfl

/-- C2: a present scalar value of a `required_numeric` field is accepted
iff some token of the tag's type-token set accepts it, with the predicates
bool = is-boolean, int = is-integer-and-not-boolean, float =
is-integer-or-float-and-not-boolean; a rejection is one TypeMismatch at the
field's path.  In particular `"[int or float]"` accepts `3` and `3.5` and
rejects `true` and `"3"`; `"[bool]"` accepts exactly booleans; `"[float]"`
accepts integer values; `"[int]"` rejects float values. -/
theorem c2_numeric_scalar_rule :
    (∀ (s key fieldPath : String) (data : List (String × JValue)) (v : JValue),
        classify (.sStr s) = .required_numeric →
        data.lookup key = some v →
        validateField (.sStr s) data key fieldPath =
          (if ∃ t ∈ typeTokens ((tag_parts s).headD ""), scalarTokenPred t v = true
           then [] else [⟨fieldPath, .sStr s, .typeError⟩])) ∧
    validateField (.sStr "[int or float] a score") [("n", .int 3)] "n" "n" = [] ∧
    validateField (.sStr "[int or float] a score") [("n", .float (7/2))] "n" "n" = [] ∧
    validateField (.sStr "[int or float] a score") [("n", .bool true)] "n" "n" =
      [⟨"n", .sStr "[int or float] a score", .typeError⟩] ∧
    validateField (.sStr "[int or float] a score") [("n", .str "3")] "n" "n" =
      [⟨"n", .sStr "[int or float] a score", .typeError⟩] ∧
    (∀ b : Bool, validateField (.sStr "[bool] flag") [("n", .bool b)] "n" "n" = []) ∧
    (∀ v : JValue, isBoolV v = false →
        validateField (.sStr "[bool] flag") [("n", v)] "n" "n" =
          [⟨"n", .sStr "[bool] flag", .typeError⟩]) ∧
    validateField (.sStr "[float] x") [("n", .int 3)] "n" "n" = [] ∧
    validateField (.sStr "[int] x") [("n", .float (7/2))] "n" "n" =
      [⟨"n", .sStr "[int] x", .typeError⟩] := by
  refine ⟨?_, rfl, rfl, rfl, rfl, ?_, ?_, rfl, rfl⟩
  · intro s key fieldPath data v hc hlk
    rw [validateField_eq_dispatch]
    unfold validateFieldK
    simp only [hc]
    unfold numericFieldChecks
    simp only [hlk, nodeTagParts]
    by_cases hex : ∃ t ∈ typeTokens ((tag_parts s).headD ""), scalarTokenPred t v = true
    · rw [if_pos hex, if_pos ((numericValid_iff_exists _ _).mpr hex)]
    · rw [if_neg hex, if_neg (fun hvv => hex ((numericValid_iff_exists _ _).mp hvv))]
  · intro b; rfl
  · intro v hb
    cases v <;> first | rfl | simp [isBoolV] at hb

/-- C2 witness: the general numeric rule applied to the tag
`"[int or float]"` and the value `3`. -/
theorem c2_numeric_scalar_rule_witness :
    validateField (.sStr "[int or float] a score") [("n", .int 3)] "n" "n" =
      (if ∃ t ∈ typeTokens ((tag_parts "[int or float] a score").headD ""),
            scalarTokenPred t (.int 3) = true
       then [] else [⟨"n", .sStr "[int or float] a score", .typeError⟩]) :=
  c2_numeric_scalar_rule.1 "[int or float] a score" "n" "n" [("n", .int 3)] (.int 3) rfl rfl

end OpenEval

namespace OpenEval

/-- C3: for a list-kind field present as a sequence, the NullOrEmptyValue
violation for emptiness is emitted iff the key ends in `_content` or equals
`responses` and the sequence is empty, independent of the declared element
type; when emitted it precedes (is in addition to, not instead of) the
field's other checks, which never contain it. -/
theorem c3_list_nonempty_name_rule :
    ∀ (node : SchemaNode) (data : List (String × JValue)) (key fieldPath : String)
      (elems : List JValue),
      (classify node = .required_list_str ∨ classify node = .required_list_dict) →
      data.lookup key = some (.list elems) →
      ∃ rest,
        validateField node data key fieldPath =
          (if nonEmptyName key = true ∧ elems.length = 0
           then [⟨fieldPath, node, .valueError⟩] else []) ++ rest ∧
        (⟨fieldPath, node, .valueError⟩ : Violation) ∉ rest := by
  intro node data key fieldPath elems hk hlk
  rw [validateField_eq_dispatch]
  unfold validateFieldK
  rcases hk with h | h <;> simp only [h]
  · -- required_list_str
    unfold listStrFieldChecks
    simp only [hlk]
    refine ⟨listStrElemChecks node elems fieldPath, ?_, ?_⟩
    · congr 1
      rcases hn : nonEmptyName key <;> rcases elems with _ | ⟨e, es⟩ <;> simp [hn]
    · intro hmem
      unfold listStrElemChecks at hmem
      split at hmem
      · simp at hmem
      · split at hmem
        · simp at hmem
        · split at hmem
          · simp at hmem
          · rcases List.mem_flatMap.mp hmem with ⟨p, _, hm⟩
            split at hm
            · simp at hm
            · rw [List.mem_singleton] at hm
              simp [Violation.mk.injEq] at hm
  · -- required_list_dict
    simp only [hlk]
    refine ⟨(match node with
             | SchemaNode.sList (SchemaNode.sDict tf :: _) =>
                 elems.enum.flatMap fun p =>
                   match p.2 with
                   | JValue.dict ef =>
                       validateFields tf ef (fieldPath ++ "[" ++ toString p.1 ++ "]")
                   | _ => [rootGuardViolation (fieldPath ++ "[" ++ toString p.1 ++ "]")]
             | _ => []), ?_, ?_⟩
    · congr 1
      · rcases hn : nonEmptyName key <;> rcases elems with _ | ⟨e, es⟩ <;> simp [hn]
      · cases node with
        | sStr s => rfl
        | sDict fs => rfl
        | sOther => rfl
        | sList items =>
            cases items with
            | nil => rfl
            | cons hd tl => cases hd <;> rfl
    · intro hmem
      split at hmem
      · rcases List.mem_flatMap.mp hmem with ⟨p, _, hm⟩
        split at hm
        · have hlen := mem_validateFields_length _ _ _ _ hm
            (fieldPathIdx_ne_empty fieldPath p.1)
          simp only [String.length_append] at hlen
          omega
        · rw [List.mem_singleton] at hm
          simp [rootGuardViolation, Violation.mk.injEq] at hm
      · simp at hmem

/-- C3 witness: the empty `tags_content` list of the running example. -/
theorem c3_list_nonempty_name_rule_witness :
    ∃ rest,
      validateField (.sList [.sStr "tag text"]) [("tags_content", .list [])]
          "tags_content" "tags_content" =
        (if nonEmptyName "tags_content" = true ∧ ([] : List JValue).length = 0
         then [⟨"tags_content", .sList [.sStr "tag text"], .valueError⟩] else []) ++ rest ∧
      (⟨"tags_content", .sList [.sStr "tag text"], .valueError⟩ : Violation) ∉ rest :=
  c3_list_nonempty_name_rule (.sList [.sStr "tag text"]) [("tags_content", .list [])]
    "tags_content" "tags_content" [] (Or.inl rfl) rfl

/-- C4: for every required kind, a key absent from the record yields
exactly one MissingField (KeyError) violation carrying the field's path,
and no other violation for that field. -/
theorem c4_missing_required_field :
    ∀ (node : SchemaNode) (data : List (String × JValue)) (key fieldPath : String),
      (classify node = .required_str ∨ classify node = .required_any ∨
       classify node = .required_numeric ∨ classify node = .required_dict ∨
       classify node = .required_list_str ∨ classify node = .required_list_dict) →
      data.lookup key = none →
      validateField node data key fieldPath = [⟨fieldPath, node, .keyError⟩] := by
  intro node data key fieldPath hk hlk
  rw [validateField_eq_dispatch]
  unfold validateFieldK
  rcases hk with h | h | h | h | h | h <;>
    simp [h, strFieldChecks, anyFieldChecks, numericFieldChecks, listStrFieldChecks, hlk]

/-- C4 witness: the plain required string field `title` absent from an
empty record. -/
theorem c4_missing_required_field_witness :
    validateField (.sStr "title text") [] "title" "title" =
      [⟨"title", .sStr "title text", .keyError⟩] :=
  c4_missing_required_field (.sStr "title text") [] "title" "title" (Or.inl rfl) rfl

/-- C5: a present `required_str` field yields NullOrEmptyValue (not
TypeMismatch) when null, TypeMismatch when non-null and not a string, and
nothing when a string. -/
theorem c5_required_str_present :
    ∀ (s : String) (data : List (String × JValue)) (key fieldPath : String) (v : JValue),
      classify (.sStr s) = .required_str →
      data.lookup key = some v →
      validateField (.sStr s) data key fieldPath =
        (if isNoneV v = true then [⟨fieldPath, .sStr s, .valueError⟩]
         else if isStrV v = true then []
         else [⟨fieldPath, .sStr s, .typeError⟩]) := by
  intro s data key fieldPath v hc hlk
  rw [validateField_eq_dispatch]
  unfold validateFieldK
  simp only [hc]
  unfold strFieldChecks
  simp only [hlk]
  cases v <;> simp [isNoneV, isStrV]

/-- C5 witness: the `title` field of the running example holding the
non-string value `5`. -/
theorem c5_required_str_present_witness :
    validateField (.sStr "title text") [("title", .int 5)] "title" "title" =
      (if isNoneV (.int 5) = true then [⟨"title", .sStr "title text", .valueError⟩]
       else if isStrV (.int 5) = true then []
       else [⟨"title", .sStr "title text", .typeError⟩]) :=
  c5_required_str_present "title text" [("title", .int 5)] "title" "title" (.int 5) rfl rfl

/-- C6: a record whose root is not an object yields exactly the single
TypeMismatch guard violation at the current path, with no schema traversal,
and the entry point still returns the uniform `(isValid, violations)` pair
with `isValid = false`. -/
theorem c6_non_object_root :
    ∀ (schema : List (String × SchemaNode)) (data : JValue) (path : String),
      isDictV data = false →
      validate data schema path =
        [⟨path, .sStr "OPENEVAL ITEM IN JSON FORMAT", .typeError⟩] ∧
      validate_entry schema data =
        (false, [⟨"", .sStr "OPENEVAL ITEM IN JSON FORMAT", .typeError⟩]) := by
  intro schema data path h
  cases data <;> first | exact ⟨rfl, rfl⟩ | simp [isDictV] at h

/-- C6 witness: the integer record `5`. -/
theorem c6_non_object_root_witness :
    validate (.int 5) [("title", .sStr "title text")] "" =
      [⟨"", .sStr "OPENEVAL ITEM IN JSON FORMAT", .typeError⟩] ∧
    validate_entry [("title", .sStr "title text")] (.int 5) =
      (false, [⟨"", .sStr "OPENEVAL ITEM IN JSON FORMAT", .typeError⟩]) :=
  c6_non_object_root [("title", .sStr "title text")] (.int 5) "" rfl

end OpenEval

namespace OpenEval

/-- C7: for a tagged-string schema node (one starting with `[` and
containing `]`), the extracted tag token list is exactly the spec's
grammar — the substring between the first `[` and the first `'] '` (or the
last `]` when no `'] '` exists), split on commas with trimmed tokens — and
classification applies the spec's rules in order (`auto`, then `optional`,
then first-token dispatch). -/
theorem c7_tag_grammar :
    ∀ s : String, s.data.head? = some '[' → ']' ∈ s.data →
      tag_parts s = specTagParts s ∧
      classify (.sStr s) = specDispatchTag (tag_parts s) := by
  intro s h1 h2
  refine ⟨?_, rfl⟩
  unfold tag_parts specTagParts
  cases hd : s.data with
  | nil => rw [hd] at h1; exact absurd h1 (by simp)
  | cons a l =>
      have ha : a = '[' := by
        rw [hd] at h1
        simpa using h1
      subst ha
      rw [hd] at h2
      simp only [hd]
      have hopen : pyFind ('[' :: l) ['['] = some 0 := by
        simp [pyFind, pyFindFrom, List.isPrefixOf]
      rw [hopen]
      cases hf : pyFind ('[' :: l) ("] ".data) with
      | some k => simp [hf]
      | none =>
          have hrf := pyRfind_isSome ('[' :: l) ']' h2
          obtain ⟨k, hk⟩ := Option.isSome_iff_exists.mp hrf
          simp [hf, hk]

/-- C7 witness: the tagged string `"[auto] id"`. -/
theorem c7_tag_grammar_witness :
    tag_parts "[auto] id" = specTagParts "[auto] id" ∧
    classify (.sStr "[auto] id") = specDispatchTag (tag_parts "[auto] id") :=
  c7_tag_grammar "[auto] id" rfl (by decide)

/-- C8 counterexample: validating `{"xs": ["oops"]}` against the schema
`{"xs": [{"a": "a text"}]}` yields one violation at `xs[0]` whose
`field_desc` is the fixed placeholder string `"OPENEVAL ITEM IN JSON
FORMAT"`, which is not any schema value occurring in the schema — in
particular not the template at that element position. -/
theorem c8_guard_descriptor_counterexample :
    validate (.dict [("xs", .list [.str "oops"])])
      [("xs", .sList [.sDict [("a", .sStr "a text")]])] "" =
      [⟨"xs[0]", .sStr "OPENEVAL ITEM IN JSON FORMAT", .typeError⟩] ∧
    (SchemaNode.sStr "OPENEVAL ITEM IN JSON FORMAT") ∉
      fieldsSubNodes [("xs", .sList [.sDict [("a", .sStr "a text")]])] := by
  constructor
  · rfl
  · intro hmem
    have hconc : fieldsSubNodes [("xs", .sList [.sDict [("a", .sStr "a text")]])] =
        [.sList [.sDict [("a", .sStr "a text")]], .sStr "a text"] := rfl
    rw [hconc] at hmem
    rcases List.mem_cons.mp hmem with h | h
    · exact absurd h (by simp)
    · rcases List.mem_cons.mp h with h1 | h1
      · have : "OPENEVAL ITEM IN JSON FORMAT" = "a text" := by
          injection h1
        exact absurd this (by decide)
      · simp at h1

/-- C8 amended: every violation appended during validation carries, in its
`field_desc`, exactly the original schema value of the field being checked
— the field of the schema whose dotted path is the violation's path, or
whose element position the violation's path denotes, located by `DescAt` —
except the violations emitted by the non-object guard (a non-object root
record, reported at the root path, or a non-object element of a
dict-template list, reported at that element position), which carry the
fixed placeholder string `"OPENEVAL ITEM IN JSON FORMAT"`. -/
theorem c8_descriptor_invariant :
    ∀ (data : JValue) (schema : List (String × SchemaNode)) (path : String) (v : Violation),
      v ∈ validate data schema path → DescAt schema path v := by
  intro data schema path v hv
  cases data with
  | dict fields => exact descAt_validateFields schema fields path v hv
  | null =>
      have heq : validate .null schema path = [rootGuardViolation path] := rfl
      rw [heq, List.mem_singleton] at hv; subst hv; exact .rootGuard _ _
  | bool b =>
      have heq : validate (.bool b) schema path = [rootGuardViolation path] := rfl
      rw [heq, List.mem_singleton] at hv; subst hv; exact .rootGuard _ _
  | int n =>
      have heq : validate (.int n) schema path = [rootGuardViolation path] := rfl
      rw [heq, List.mem_singleton] at hv; subst hv; exact .rootGuard _ _
  | float q =>
      have heq : validate (.float q) schema path = [rootGuardViolation path] := rfl
      rw [heq, List.mem_singleton] at hv; subst hv; exact .rootGuard _ _
  | str s =>
      have heq : validate (.str s) schema path = [rootGuardViolation path] := rfl
      rw [heq, List.mem_singleton] at hv; subst hv; exact .rootGuard _ _
  | list xs =>
      have heq : validate (.list xs) schema path = [rootGuardViolation path] := rfl
      rw [heq, List.mem_singleton] at hv; subst hv; exact .rootGuard _ _

/-- C8 witness: the missing-field violation for `t` is located by `DescAt`
at the field `t`, carrying the schema value of `t`. -/
theorem c8_descriptor_invariant_witness :
    (⟨"t", .sStr "t text", .keyError⟩ : Violation) ∈
      validate (.dict []) [("t", .sStr "t text")] "" ∧
    DescAt [("t", .sStr "t text")] "" (⟨"t", .sStr "t text", .keyError⟩ : Violation) := by
  have hmem : (⟨"t", .sStr "t text", .keyError⟩ : Violation) ∈
      validate (.dict []) [("t", .sStr "t text")] "" := by
    have heq : validate (.dict []) [("t", .sStr "t text")] "" =
        [⟨"t", .sStr "t text", .keyError⟩] := rfl
    rw [heq]
    exact List.mem_singleton.mpr rfl
  exact ⟨hmem, c8_descriptor_invariant (.dict []) [("t", .sStr "t text")] "" _ hmem⟩

/-- C9: list-element type checks use raw subclass-respecting `isinstance`
against the derived classes — a boolean element passes when `int` is
allowed, and an integer element fails a `float`-only constraint — the
opposite of the scalar numeric predicates, under which a boolean is
rejected by `int`/`float` and an integer satisfies `float`. -/
theorem c9_element_isinstance_vs_scalar :
    (∀ (b : Bool) (ts : List PyType), PyType.int ∈ ts →
        isinstanceAny (.bool b) ts = true) ∧
    (∀ n : Int, isinstanceAny (.int n) [PyType.float] = false) ∧
    validate (.dict [("scores", .list [.bool true])])
      [("scores", .sList [.sStr "[int or float] a score"])] "" = [] ∧
    validate (.dict [("xs", .list [.int 3])]) [("xs", .sStr "[list[float]] xs")] "" =
      [⟨"xs[0]", .sStr "[list[float]] xs", .typeError⟩] ∧
    validate (.dict [("n", .bool true)]) [("n", .sStr "[int or float] n")] "" =
      [⟨"n", .sStr "[int or float] n", .typeError⟩] ∧
    validate (.dict [("n", .int 3)]) [("n", .sStr "[float] n")] "" = [] := by
  refine ⟨?_, ?_, rfl, rfl, rfl, rfl⟩
  · intro b ts hts
    unfold isinstanceAny
    rw [List.any_eq_true]
    exact ⟨PyType.int, hts, rfl⟩
  · intro n; rfl

/-- C9 witness: a boolean passes the `isinstance` check for allowed classes
`(int, float)`. -/
theorem c9_element_isinstance_vs_scalar_witness :
    isinstanceAny (.bool true) [PyType.int, PyType.float] = true :=
  c9_element_isinstance_vs_scalar.1 true [PyType.int, PyType.float] (by decide)

/-- C10: modifier-token matching is case-sensitive — a tagged string
classifies to `auto` exactly when a token equals the lowercase `"auto"`
(and to `optional` exactly when no token is `"auto"` and one equals
`"optional"`); `"[AUTO] id"` therefore classifies to `required_str` and the
field is demanded from the record. -/
theorem c10_case_sensitive_tokens :
    (∀ s : String,
       (classify (.sStr s) = .auto ↔ "auto" ∈ tag_parts s) ∧
       (classify (.sStr s) = .optional ↔
         "auto" ∉ tag_parts s ∧ "optional" ∈ tag_parts s)) ∧
    classify (.sStr "[AUTO] id") = .required_str ∧
    validate (.dict []) [("id", .sStr "[AUTO] id")] "" =
      [⟨"id", .sStr "[AUTO] id", .keyError⟩] := by
  refine ⟨?_, rfl, rfl⟩
  intro s
  constructor
  · constructor
    · intro h
      by_contra hmem
      simp only [classify] at h
      rw [if_neg hmem] at h
      split_ifs at h
    · intro hmem
      simp only [classify]
      rw [if_pos hmem]
  · constructor
    · intro h
      simp only [classify] at h
      by_cases ha : "auto" ∈ tag_parts s
      · rw [if_pos ha] at h; simp at h
      · rw [if_neg ha] at h
        by_cases ho : "optional" ∈ tag_parts s
        · exact ⟨ha, ho⟩
        · rw [if_neg ho] at h; split_ifs at h
    · rintro ⟨ha, ho⟩
      simp only [classify]
      rw [if_neg ha, if_pos ho]

/-- C10 witness: the lowercase tag `"[auto] a"` classifies to `auto`. -/
theorem c10_case_sensitive_tokens_witness :
    classify (.sStr "[auto] a") = .auto ↔ "auto" ∈ tag_parts "[auto] a" :=
  (c10_case_sensitive_tokens.1 "[auto] a").1

end OpenEval
